import Mathlib

/-!
Verification of the update-manager policy evaluation dispatcher
(`update_manager-inl.h` of `android_system_update_engine`).

The dispatcher orchestrates one evaluation of a policy decision operation,
applies the fallback-to-default-policy rule, and, for asynchronous
requests, re-arms itself via the event loop when the decision is
indeterminate.  We embed the dispatcher's control flow shallowly: the
collaborators (EvaluationContext, Policy/DefaultPolicy, the event loop)
appear as explicit values and function parameters, and every observable
action of a pass (context resets, policy invocations with their exact
inputs, log statements, callback delivery, scheduling calls) is recorded
in an event trace.
-/

namespace UpdateEngine

/-- Tri-state outcome of one evaluation attempt (`EvalStatus`). -/
inductive EvalStatus where
  | kSucceeded
  | kFailed
  | kAskMeAgainLater
deriving DecidableEq, Repr

open EvalStatus

/-- Shallow model of an `EvaluationContext`.  The context itself lives in a
collaborator (`evaluation_context.h`, outside the dispatcher); the
dispatcher only relies on its identity, its constructor arguments (the soft
evaluation timeout and the optional hard expiration timeout), its
`is_expired` flag, and the fact that `ResetExpiration` / `ResetEvaluation`
mutate it.  The two counters record how many times each reset ran. -/
structure EvaluationContext where
  id : Nat
  evaluation_timeout : Nat
  expiration_timeout : Option Nat
  expired : Bool
  expirationResets : Nat
  evalResets : Nat
deriving DecidableEq, Repr

/-- `EvaluationContext::is_expired()`. -/
def EvaluationContext.is_expired (ec : EvaluationContext) : Bool := ec.expired

/-- `EvaluationContext::ResetExpiration()`: clears the expired flag. -/
def EvaluationContext.ResetExpiration (ec : EvaluationContext) : EvaluationContext :=
  { ec with expired := false, expirationResets := ec.expirationResets + 1 }

/-- `EvaluationContext::ResetEvaluation()`: discards the per-pass
observation state (modelled by bumping a counter). -/
def EvaluationContext.ResetEvaluation (ec : EvaluationContext) : EvaluationContext :=
  { ec with evalResets := ec.evalResets + 1 }

/-- Construct an `EvaluationContext`.  The two-argument C++ constructor
(sync path) passes no expiration timeout; the three-argument one (async
path) passes one. -/
def newEvaluationContext (ecid : Nat) (evalTimeout : Nat)
    (expTimeout : Option Nat) : EvaluationContext :=
  { id := ecid, evaluation_timeout := evalTimeout, expiration_timeout := expTimeout,
    expired := false, expirationResets := 0, evalResets := 0 }

/-- Observable events of the dispatcher, recorded in program order.
`St` is the world-state type, `R` the result type, `A` the (bundled)
argument tuple type of the decision operation.  Invocation events record
the exact values handed to the policy object: the context, the state, the
current contents of the error slot and of the result slot, and the
arguments. -/
inductive Ev (St R A : Type) where
  | logWarning (tag : String)
  | logError (tag : String)
  | logInfoStart (name : String)
  | logInfoEnd (name : String)
  | dumpContext (ec : EvaluationContext)
  | resetExpiration
  | resetEvaluation
  | invokePrimary (ec : EvaluationContext) (st : St) (errIn : String)
      (slotIn : R) (args : A)
  | invokeDefault (ec : EvaluationContext) (st : St) (errIn : String)
      (slotIn : R) (args : A)
  | runOnValueChangeOrTimeout (ec : EvaluationContext) (ok : Bool)
  | callbackRun (s : EvalStatus) (r : R)
  | runFromMainLoop
deriving DecidableEq, Repr

/-- A policy decision operation, as the dispatcher sees it: given the
evaluation context, the world state, the current error-slot contents, the
current result-slot contents and the arguments, it returns a status and
the new contents of the error and result slots (the C++ operation writes
through `std::string*` and `R*` out-parameters). -/
def PolicyMethod (St R A : Type) : Type :=
  EvaluationContext → St → String → R → A → EvalStatus × String × R

/-- The pair of decision providers held by the `UpdateManager`:
`policy_` (primary) and `default_policy_` (fallback), exposing the same
operation, plus the operation's name for logging. -/
structure Policies (St R A : Type) where
  policy_ : PolicyMethod St R A
  default_policy_ : PolicyMethod St R A
  policyName : String

/-- Result of one `EvaluatePolicy` pass: the returned status, the final
contents of the result and error slots, the context as left by the pass,
and the event trace of the pass. -/
structure EvalOutcome (St R A : Type) where
  status : EvalStatus
  result : R
  error : String
  ec : EvaluationContext
  trace : List (Ev St R A)

/-- `UpdateManager::EvaluatePolicy` (update_manager-inl.h:17-63), translated
line by line.  `result0` is the value sitting in the caller's result slot
when the pass begins. -/
def EvaluatePolicy {St R A : Type} (p : Policies St R A)
    (ec0 : EvaluationContext) (st : St) (result0 : R) (args : A) :
    EvalOutcome St R A :=
  -- If expiration timeout fired, dump the context and reset expiration;
  -- evaluation still proceeds.
  let (ec1, tr0) :=
    if ec0.is_expired then
      (ec0.ResetExpiration,
       [Ev.logWarning "Request timed out, evaluation context",
        Ev.dumpContext ec0, Ev.resetExpiration])
    else (ec0, ([] : List (Ev St R A)))
  -- Reset the evaluation context.
  let ec2 := ec1.ResetEvaluation
  let tr1 := tr0 ++ [Ev.resetEvaluation, Ev.logInfoStart p.policyName]
  -- First try calling the actual policy (std::string error is empty-initialized).
  let (status, error1, result1) := p.policy_ ec2 st "" result0 args
  let tr2 := tr1 ++ [Ev.invokePrimary ec2 st "" result0 args]
  -- If evaluating the main policy failed, defer to the default policy.
  if status = kFailed then
    let tr3 := tr2 ++ [Ev.logWarning ("Evaluating policy failed: " ++ error1),
                       Ev.dumpContext ec2]
    -- error.clear();
    let (status2, error2, result2) := p.default_policy_ ec2 st "" result1 args
    let tr4 := tr3 ++ [Ev.invokeDefault ec2 st "" result1 args]
    if status2 = kFailed then
      { status := kFailed, result := result2, error := error2, ec := ec2,
        trace := tr4 ++ [Ev.logWarning ("Evaluating default policy failed: " ++ error2),
                         Ev.logInfoEnd p.policyName] }
    else if status2 = kAskMeAgainLater then
      { status := kFailed, result := result2, error := error2, ec := ec2,
        trace := tr4 ++ [Ev.logError "Default policy would block; this is a bug, forcing failure.",
                         Ev.logInfoEnd p.policyName] }
    else
      { status := status2, result := result2, error := error2, ec := ec2,
        trace := tr4 ++ [Ev.logInfoEnd p.policyName] }
  else
    { status := status, result := result1, error := error1, ec := ec2,
      trace := tr2 ++ [Ev.logInfoEnd p.policyName] }

/-- What one `OnPolicyReadyToEvaluate` invocation does after evaluating:
either the async request finished and the delivery callback ran, or a
reevaluation closure (capturing the context, callback, operation and
arguments) was registered with the context. -/
inductive StepResult (St R A : Type) where
  | delivered (s : EvalStatus) (r : R)
  | rescheduled (ec : EvaluationContext)
deriving DecidableEq, Repr

/-- True when the step delivered the callback. -/
def StepResult.isDelivered {St R A : Type} : StepResult St R A → Bool
  | .delivered _ _ => true
  | .rescheduled _ => false

/-- `UpdateManager::OnPolicyReadyToEvaluate` (update_manager-inl.h:65-98):
one async evaluation pass.  `sched` is the collaborator decision of
`EvaluationContext::RunOnValueChangeOrTimeout` — true means a reevaluation
was scheduled.  `result0` models the freshly default-constructed local
`R result;`. -/
def OnPolicyReadyToEvaluate {St R A : Type} (p : Policies St R A)
    (sched : EvaluationContext → Bool) (ec : EvaluationContext) (st : St)
    (result0 : R) (args : A) : StepResult St R A × List (Ev St R A) :=
  -- Evaluate the policy.
  let o := EvaluatePolicy p ec st result0 args
  if o.status ≠ kAskMeAgainLater then
    -- AsyncPolicyRequest finished.
    (.delivered o.status o.result, o.trace ++ [Ev.callbackRun o.status o.result])
  else
    -- Re-schedule the policy request based on used variables.
    let ok := sched o.ec
    let tr := o.trace ++ [Ev.runOnValueChangeOrTimeout o.ec ok]
    if ok then
      (.rescheduled o.ec, tr)  -- Reevaluation scheduled successfully.
    else
      (.delivered o.status o.result,
       tr ++ [Ev.logError "Failed to schedule a reevaluation of policy; this is a bug.",
              Ev.callbackRun o.status o.result])

/-- The event-loop-driven life of one async request, starting at pass `n`
with context `ec`.  The world state visible to the policy at pass `k` is
`world k` (the `state_` object is shared, but the variable values behind it
change between passes); `sched k` is `RunOnValueChangeOrTimeout`'s verdict
during pass `k`; `r0` is the default-constructed result slot of each pass.
`fuel` bounds the number of passes we unfold; `none` means the request was
still pending when fuel ran out. -/
def runAsyncFrom {St R A : Type} (p : Policies St R A)
    (world : Nat → St) (sched : Nat → EvaluationContext → Bool) (r0 : R)
    (args : A) : EvaluationContext → Nat → Nat →
    Option (EvalStatus × R) × List (Ev St R A)
  | _, _, 0 => (none, [])
  | ec, n, fuel + 1 =>
    match OnPolicyReadyToEvaluate p (sched n) ec (world n) r0 args with
    | (.delivered s r, tr) => (some (s, r), tr)
    | (.rescheduled ec', tr) =>
      ((runAsyncFrom p world sched r0 args ec' (n + 1) fuel).1,
       tr ++ (runAsyncFrom p world sched r0 args ec' (n + 1) fuel).2)

/-- The dispatcher's own configuration: the timeouts handed to every
`EvaluationContext` it constructs. -/
structure UpdateManager where
  evaluation_timeout : Nat
  expiration_timeout : Nat
deriving DecidableEq, Repr

/-- Outcome of `UpdateManager::PolicyRequest`: the returned status, the
result slot, the trace of the single pass, and whether the
`DCHECK(EvalStatus::kAskMeAgainLater != ret)` assertion condition was
violated (it is compiled out in release builds; in debug builds a violation
aborts before the status is returned). -/
structure SyncOutcome (St R A : Type) where
  status : EvalStatus
  result : R
  trace : List (Ev St R A)
  dcheckViolated : Bool

/-- `UpdateManager::PolicyRequest` (update_manager-inl.h:100-120): one
evaluation on a freshly constructed `EvaluationContext(clock_,
evaluation_timeout_)` — no expiration timeout.  `conv` is the C++
conversion from the caller-supplied `ActualArgs` to the operation's
declared `ExpectedArgs`, forced to happen here by the explicit
instantiation `EvaluatePolicy<R, ExpectedArgs...>`.  `r0` is the caller's
result slot, `ecid` the identity of the fresh context. -/
def PolicyRequest {St R A A0 : Type} (um : UpdateManager) (p : Policies St R A)
    (conv : A0 → A) (st : St) (r0 : R) (ecid : Nat) (args0 : A0) :
    SyncOutcome St R A :=
  let ec := newEvaluationContext ecid um.evaluation_timeout none
  let o := EvaluatePolicy p ec st r0 (conv args0)
  -- Sync policy requests must not block, if they do then this is an error.
  let dv := o.status = kAskMeAgainLater
  let tr := o.trace ++
    (if dv then [Ev.logWarning "Sync request used with an async policy; this is a bug"]
     else [])
  { status := o.status, result := o.result, trace := tr, dcheckViolated := dv }

/-- The closure that `AsyncPolicyRequest` posts to the event loop: it
captures the freshly built context and the already-converted arguments
(`base::Bind(&UpdateManager::OnPolicyReadyToEvaluate<R, ExpectedArgs...>,
..., ec, callback, policy_method, args...)`). -/
structure PostedClosure (A : Type) where
  ec : EvaluationContext
  args : A
deriving DecidableEq, Repr

/-- `UpdateManager::AsyncPolicyRequest` (update_manager-inl.h:122-138):
builds an `EvaluationContext(clock_, evaluation_timeout_,
expiration_timeout_)`, binds the first evaluation closure (converting the
caller-supplied arguments to the declared types exactly here), posts it
with `RunFromMainLoop`, and returns.  The returned trace is everything the
call itself does — note it contains no policy invocation. -/
def AsyncPolicyRequest {St R A A0 : Type} (um : UpdateManager)
    (conv : A0 → A) (ecid : Nat) (args0 : A0) :
    PostedClosure A × List (Ev St R A) :=
  let ec := newEvaluationContext ecid um.evaluation_timeout
    (some um.expiration_timeout)
  let eval_callback : PostedClosure A := { ec := ec, args := conv args0 }
  (eval_callback, [Ev.runFromMainLoop])

/-- The event loop later invokes the posted closure; only then does the
first evaluation pass (and any subsequent ones) run. -/
def runPostedClosure {St R A : Type} (p : Policies St R A)
    (world : Nat → St) (sched : Nat → EvaluationContext → Bool) (r0 : R)
    (c : PostedClosure A) (fuel : Nat) :
    Option (EvalStatus × R) × List (Ev St R A) :=
  runAsyncFrom p world sched r0 c.args c.ec 0 fuel

/-! ### Trace observation helpers -/

/-- Is this event an invocation of the primary policy? -/
def Ev.isInvokePrimary {St R A : Type} : Ev St R A → Bool
  | .invokePrimary _ _ _ _ _ => true
  | _ => false

/-- Is this event an invocation of the default policy? -/
def Ev.isInvokeDefault {St R A : Type} : Ev St R A → Bool
  | .invokeDefault _ _ _ _ _ => true
  | _ => false

/-- Is this event a run of the delivery callback? -/
def Ev.isCallbackRun {St R A : Type} : Ev St R A → Bool
  | .callbackRun _ _ => true
  | _ => false

/-- Is this event a call to `RunOnValueChangeOrTimeout`? -/
def Ev.isSchedCall {St R A : Type} : Ev St R A → Bool
  | .runOnValueChangeOrTimeout _ _ => true
  | _ => false

/-- Is this event a successful registration of a reevaluation closure
(`RunOnValueChangeOrTimeout` returned true)? -/
def Ev.isSchedSuccess {St R A : Type} : Ev St R A → Bool
  | .runOnValueChangeOrTimeout _ ok => ok
  | _ => false

/-- Is this event a call to `ResetExpiration`? -/
def Ev.isResetExpiration {St R A : Type} : Ev St R A → Bool
  | .resetExpiration => true
  | _ => false

/-- The argument tuple handed to the policy object, when the event is a
policy invocation. -/
def Ev.invokeArgs {St R A : Type} : Ev St R A → Option A
  | .invokePrimary _ _ _ _ a => some a
  | .invokeDefault _ _ _ _ a => some a
  | _ => none

/-- The evaluation context handed to the policy object, when the event is a
policy invocation. -/
def Ev.invokeEC {St R A : Type} : Ev St R A → Option EvaluationContext
  | .invokePrimary ec _ _ _ _ => some ec
  | .invokeDefault ec _ _ _ _ => some ec
  | _ => none

/-- Number of primary-policy invocations in a trace. -/
def primaryCalls {St R A : Type} (tr : List (Ev St R A)) : Nat :=
  tr.countP Ev.isInvokePrimary

/-- Number of default-policy invocations in a trace. -/
def defaultCalls {St R A : Type} (tr : List (Ev St R A)) : Nat :=
  tr.countP Ev.isInvokeDefault

/-- Number of delivery-callback runs in a trace. -/
def callbackRuns {St R A : Type} (tr : List (Ev St R A)) : Nat :=
  tr.countP Ev.isCallbackRun

/-- Number of `RunOnValueChangeOrTimeout` calls in a trace. -/
def schedCalls {St R A : Type} (tr : List (Ev St R A)) : Nat :=
  tr.countP Ev.isSchedCall

/-- Number of successful reevaluation-closure registrations in a trace. -/
def schedSuccesses {St R A : Type} (tr : List (Ev St R A)) : Nat :=
  tr.countP Ev.isSchedSuccess

/-- Number of `ResetExpiration` calls in a trace. -/
def expirationResetCalls {St R A : Type} (tr : List (Ev St R A)) : Nat :=
  tr.countP Ev.isResetExpiration

/-- The context as the policy sees it during a pass that entered with
`ec0`: expiration is reset first when the context is expired, then the
per-pass evaluation state is reset. -/
def entryEC (ec0 : EvaluationContext) : EvaluationContext :=
  (if ec0.is_expired then ec0.ResetExpiration else ec0).ResetEvaluation

/-- A policy operation that ignores its inputs and returns a fixed status,
error text and result; used to run the dispatcher on concrete inputs. -/
def constMethod (s : EvalStatus) (e : String) (r : Nat) : PolicyMethod Nat Nat Nat :=
  fun _ _ _ _ _ => (s, e, r)

/-- A concrete primary/default pair built from two `constMethod`s. -/
def constPolicies (sp sd : EvalStatus) (rp rd : Nat) : Policies Nat Nat Nat :=
  { policy_ := constMethod sp "primary error" rp,
    default_policy_ := constMethod sd "default error" rd,
    policyName := "TestOp" }

/-- A policy whose verdict depends on the world state: indeterminate while
the state is `0`, a decision of `42` afterwards.  Drives multi-pass async
runs on concrete inputs. -/
def worldMethod : PolicyMethod Nat Nat Nat :=
  fun _ st _ _ _ => (if st = 0 then kAskMeAgainLater else kSucceeded, "", 42)

/-- Primary/default pair around `worldMethod`. -/
def worldPolicies : Policies Nat Nat Nat :=
  { policy_ := worldMethod,
    default_policy_ := constMethod kSucceeded "" 7,
    policyName := "WorldOp" }

/-! ### Shared helper lemmas -/

/-- Neither reset changes the context's identity. -/
theorem entryEC_id (ec : EvaluationContext) : (entryEC ec).id = ec.id := by
  unfold entryEC EvaluationContext.ResetExpiration EvaluationContext.ResetEvaluation
  cases ec.is_expired <;> simp

set_option maxHeartbeats 1600000 in
/-- Bundle of facts about one `EvaluatePolicy` pass, proved once by full
case analysis on the expiration flag and the two policy verdicts:
the final context, the per-pass event counts, the status characterization,
the pass-through behavior when the primary does not fail, and the data
carried by every policy-invocation event. -/
theorem EvaluatePolicy_props {St R A : Type} (p : Policies St R A)
    (ec0 : EvaluationContext) (st : St) (r0 : R) (args : A) :
    (EvaluatePolicy p ec0 st r0 args).ec = entryEC ec0 ∧
    primaryCalls (EvaluatePolicy p ec0 st r0 args).trace = 1 ∧
    callbackRuns (EvaluatePolicy p ec0 st r0 args).trace = 0 ∧
    schedCalls (EvaluatePolicy p ec0 st r0 args).trace = 0 ∧
    schedSuccesses (EvaluatePolicy p ec0 st r0 args).trace = 0 ∧
    ((EvaluatePolicy p ec0 st r0 args).status = kAskMeAgainLater ↔
      (p.policy_ (entryEC ec0) st "" r0 args).1 = kAskMeAgainLater) ∧
    ((p.policy_ (entryEC ec0) st "" r0 args).1 ≠ kFailed →
      (EvaluatePolicy p ec0 st r0 args).status =
        (p.policy_ (entryEC ec0) st "" r0 args).1 ∧
      (EvaluatePolicy p ec0 st r0 args).result =
        (p.policy_ (entryEC ec0) st "" r0 args).2.2) ∧
    Ev.invokePrimary (entryEC ec0) st "" r0 args ∈
      (EvaluatePolicy p ec0 st r0 args).trace ∧
    (∀ e ∈ (EvaluatePolicy p ec0 st r0 args).trace,
      (e.invokeArgs = none ∨ e.invokeArgs = some args) ∧
      (∀ ec', e.invokeEC = some ec' → ec' = entryEC ec0)) := by
  cases hexp : ec0.is_expired with
  | false =>
    rcases hp : p.policy_ (entryEC ec0) st "" r0 args with ⟨s1, e1, r1⟩
    simp only [entryEC, hexp, Bool.false_eq_true, if_false] at hp ⊢
    cases s1 <;>
      simp_all [EvaluatePolicy, hexp, primaryCalls, callbackRuns, schedCalls,
        schedSuccesses, List.countP_cons, List.countP_nil, Ev.isInvokePrimary,
        Ev.isCallbackRun, Ev.isSchedCall, Ev.isSchedSuccess, Ev.invokeArgs,
        Ev.invokeEC] <;>
      rcases hd : p.default_policy_ (ec0.ResetEvaluation) st "" r1 args
        with ⟨s2, e2, r2⟩ <;>
      cases s2 <;>
      simp_all [List.countP_cons, List.countP_nil, Ev.isInvokePrimary,
        Ev.isCallbackRun, Ev.isSchedCall, Ev.isSchedSuccess, Ev.invokeArgs,
        Ev.invokeEC]
  | true =>
    rcases hp : p.policy_ (entryEC ec0) st "" r0 args with ⟨s1, e1, r1⟩
    simp only [entryEC, hexp, if_true] at hp ⊢
    cases s1 <;>
      simp_all [EvaluatePolicy, hexp, primaryCalls, callbackRuns, schedCalls,
        schedSuccesses, List.countP_cons, List.countP_nil, Ev.isInvokePrimary,
        Ev.isCallbackRun, Ev.isSchedCall, Ev.isSchedSuccess, Ev.invokeArgs,
        Ev.invokeEC] <;>
      rcases hd : p.default_policy_ (ec0.ResetExpiration.ResetEvaluation)
        st "" r1 args with ⟨s2, e2, r2⟩ <;>
      cases s2 <;>
      simp_all [List.countP_cons, List.countP_nil, Ev.isInvokePrimary,
        Ev.isCallbackRun, Ev.isSchedCall, Ev.isSchedSuccess, Ev.invokeArgs,
        Ev.invokeEC]

/-- Counting primary invocations distributes over trace concatenation. -/
theorem primaryCalls_append {St R A : Type} (l1 l2 : List (Ev St R A)) :
    primaryCalls (l1 ++ l2) = primaryCalls l1 + primaryCalls l2 := by
  simp [primaryCalls, List.countP_append]

/-- Counting callback runs distributes over trace concatenation. -/
theorem callbackRuns_append {St R A : Type} (l1 l2 : List (Ev St R A)) :
    callbackRuns (l1 ++ l2) = callbackRuns l1 + callbackRuns l2 := by
  simp [callbackRuns, List.countP_append]

/-- Counting scheduling calls distributes over trace concatenation. -/
theorem schedCalls_append {St R A : Type} (l1 l2 : List (Ev St R A)) :
    schedCalls (l1 ++ l2) = schedCalls l1 + schedCalls l2 := by
  simp [schedCalls, List.countP_append]

/-- Counting successful registrations distributes over concatenation. -/
theorem schedSuccesses_append {St R A : Type} (l1 l2 : List (Ev St R A)) :
    schedSuccesses (l1 ++ l2) = schedSuccesses l1 + schedSuccesses l2 := by
  simp [schedSuccesses, List.countP_append]

/-- The resets performed at the start of a pass do not change the context's
constructor-supplied timeouts. -/
theorem entryEC_timeouts (ec : EvaluationContext) :
    (entryEC ec).evaluation_timeout = ec.evaluation_timeout ∧
    (entryEC ec).expiration_timeout = ec.expiration_timeout := by
  unfold entryEC EvaluationContext.ResetExpiration EvaluationContext.ResetEvaluation
  cases ec.is_expired <;> simp

/-- When the primary policy fails, the pass's status is the default
policy's verdict with `kAskMeAgainLater` downgraded to `kFailed`, and the
pass's error slot is whatever the default policy wrote into a cleared
slot. -/
theorem EvaluatePolicy_failed_status {St R A : Type} (p : Policies St R A)
    (ec0 : EvaluationContext) (st : St) (r0 : R) (args : A)
    (h1 : (p.policy_ (entryEC ec0) st "" r0 args).1 = kFailed) :
    (EvaluatePolicy p ec0 st r0 args).status =
      (if (p.default_policy_ (entryEC ec0) st ""
            (p.policy_ (entryEC ec0) st "" r0 args).2.2 args).1 = kSucceeded
       then kSucceeded else kFailed) ∧
    (EvaluatePolicy p ec0 st r0 args).error =
      (p.default_policy_ (entryEC ec0) st ""
        (p.policy_ (entryEC ec0) st "" r0 args).2.2 args).2.1 := by
  cases hexp : ec0.is_expired with
  | false =>
    simp only [entryEC, hexp, Bool.false_eq_true, if_false] at h1 ⊢
    rcases hp : p.policy_ ec0.ResetEvaluation st "" r0 args with ⟨s1, e1, r1⟩
    rcases hd : p.default_policy_ ec0.ResetEvaluation st "" r1 args
      with ⟨s2, e2, r2⟩
    cases s1 <;> cases s2 <;> simp_all [EvaluatePolicy, hexp]
  | true =>
    simp only [entryEC, hexp, if_true] at h1 ⊢
    rcases hp : p.policy_ (ec0.ResetExpiration.ResetEvaluation) st "" r0 args
      with ⟨s1, e1, r1⟩
    rcases hd : p.default_policy_ (ec0.ResetExpiration.ResetEvaluation) st "" r1 args
      with ⟨s2, e2, r2⟩
    cases s1 <;> cases s2 <;> simp_all [EvaluatePolicy, hexp]

/-- Every default-policy invocation of a pass presents an empty error
slot (the dispatcher clears the slot before falling back). -/
theorem EvaluatePolicy_invokeDefault_err {St R A : Type} (p : Policies St R A)
    (ec0 : EvaluationContext) (st : St) (r0 : R) (args : A) :
    ∀ ec' st' err slot a,
      Ev.invokeDefault ec' st' err slot a ∈ (EvaluatePolicy p ec0 st r0 args).trace →
      err = "" := by
  intro ec' st' err slot a
  cases hexp : ec0.is_expired with
  | false =>
    rcases hp : p.policy_ ec0.ResetEvaluation st "" r0 args with ⟨s1, e1, r1⟩
    rcases hd : p.default_policy_ ec0.ResetEvaluation st "" r1 args
      with ⟨s2, e2, r2⟩
    cases s1 <;> cases s2 <;> simp_all [EvaluatePolicy, hexp]
  | true =>
    rcases hp : p.policy_ (ec0.ResetExpiration.ResetEvaluation) st "" r0 args
      with ⟨s1, e1, r1⟩
    rcases hd : p.default_policy_ (ec0.ResetExpiration.ResetEvaluation) st "" r1 args
      with ⟨s2, e2, r2⟩
    cases s1 <;> cases s2 <;> simp_all [EvaluatePolicy, hexp]

/-- Per-pass accounting for `OnPolicyReadyToEvaluate`: exactly one of
"delivery callback ran" and "reevaluation closure registered" happens, the
primary policy runs exactly once, and delivery is equivalent to the
callback having run. -/
theorem OnPolicyReadyToEvaluate_counts {St R A : Type} (p : Policies St R A)
    (sched : EvaluationContext → Bool) (ec : EvaluationContext) (st : St)
    (r0 : R) (args : A) :
    callbackRuns (OnPolicyReadyToEvaluate p sched ec st r0 args).2 +
      schedSuccesses (OnPolicyReadyToEvaluate p sched ec st r0 args).2 = 1 ∧
    primaryCalls (OnPolicyReadyToEvaluate p sched ec st r0 args).2 = 1 ∧
    ((OnPolicyReadyToEvaluate p sched ec st r0 args).1.isDelivered = true ↔
      callbackRuns (OnPolicyReadyToEvaluate p sched ec st r0 args).2 = 1) := by
  obtain ⟨-, hpc, hcb, -, hss, -, -, -, -⟩ := EvaluatePolicy_props p ec st r0 args
  have hpc' : List.countP Ev.isInvokePrimary
      (EvaluatePolicy p ec st r0 args).trace = 1 := hpc
  have hcb' : List.countP Ev.isCallbackRun
      (EvaluatePolicy p ec st r0 args).trace = 0 := hcb
  have hss' : List.countP Ev.isSchedSuccess
      (EvaluatePolicy p ec st r0 args).trace = 0 := hss
  simp only [OnPolicyReadyToEvaluate]
  split
  · simp [callbackRuns, schedSuccesses, primaryCalls, List.countP_append,
      List.countP_cons, List.countP_nil, hpc', hcb', hss', Ev.isCallbackRun,
      Ev.isSchedSuccess, Ev.isInvokePrimary, StepResult.isDelivered]
  · split
    · rename_i hok
      simp [hok, callbackRuns, schedSuccesses, primaryCalls, List.countP_append,
        List.countP_cons, List.countP_nil, hpc', hcb', hss', Ev.isCallbackRun,
        Ev.isSchedSuccess, Ev.isInvokePrimary, StepResult.isDelivered]
    · rename_i hok
      simp [hok, callbackRuns, schedSuccesses, primaryCalls, List.countP_append,
        List.countP_cons, List.countP_nil, hpc', hcb', hss', Ev.isCallbackRun,
        Ev.isSchedSuccess, Ev.isInvokePrimary, StepResult.isDelivered]

/-- A pass that reschedules hands the *same* context to the next pass (the
one the evaluation left behind), and only does so on an indeterminate
status. -/
theorem OnPolicyReadyToEvaluate_rescheduled {St R A : Type}
    (p : Policies St R A) (sched : EvaluationContext → Bool)
    (ec : EvaluationContext) (st : St) (r0 : R) (args : A) :
    ∀ ec', (OnPolicyReadyToEvaluate p sched ec st r0 args).1 =
        StepResult.rescheduled ec' →
      ec' = entryEC ec ∧
      (EvaluatePolicy p ec st r0 args).status = kAskMeAgainLater := by
  obtain ⟨hec, -, -, -, -, -, -, -, -⟩ := EvaluatePolicy_props p ec st r0 args
  intro ec'
  simp only [OnPolicyReadyToEvaluate]
  split
  · simp
  · split
    · intro h
      rename_i hnot _
      refine ⟨?_, by simpa using hnot⟩
      rw [← hec]
      simpa using h.symm
    · simp

/-- A pass that delivers always delivers the evaluation's own status and
result — whether delivery happened because the status was determinate or
because rescheduling failed. -/
theorem OnPolicyReadyToEvaluate_delivered {St R A : Type}
    (p : Policies St R A) (sched : EvaluationContext → Bool)
    (ec : EvaluationContext) (st : St) (r0 : R) (args : A) :
    ∀ s r, (OnPolicyReadyToEvaluate p sched ec st r0 args).1 =
        StepResult.delivered s r →
      s = (EvaluatePolicy p ec st r0 args).status ∧
      r = (EvaluatePolicy p ec st r0 args).result := by
  intro s r
  simp only [OnPolicyReadyToEvaluate]
  split
  · intro h
    simpa [eq_comm] using h
  · split
    · simp
    · intro h
      simpa [eq_comm] using h

/-- Every policy-invocation event of a pass carries the very argument
bundle and the very (reset) context of that pass. -/
theorem OnPolicyReadyToEvaluate_events {St R A : Type}
    (p : Policies St R A) (sched : EvaluationContext → Bool)
    (ec : EvaluationContext) (st : St) (r0 : R) (args : A) :
    ∀ e ∈ (OnPolicyReadyToEvaluate p sched ec st r0 args).2,
      (e.invokeArgs = none ∨ e.invokeArgs = some args) ∧
      (∀ ec', e.invokeEC = some ec' → ec' = entryEC ec) := by
  obtain ⟨-, -, -, -, -, -, -, -, hinv⟩ := EvaluatePolicy_props p ec st r0 args
  intro e he
  simp only [OnPolicyReadyToEvaluate] at he
  have hcase : e ∈ (EvaluatePolicy p ec st r0 args).trace ∨
      e.invokeArgs = none := by
    revert he
    split
    · simp only [List.mem_append, List.mem_cons, List.not_mem_nil, or_false]
      rintro (h | rfl)
      · exact Or.inl h
      · exact Or.inr rfl
    · split
      · simp only [List.mem_append, List.mem_cons, List.not_mem_nil, or_false]
        rintro (h | rfl)
        · exact Or.inl h
        · exact Or.inr rfl
      · simp only [List.mem_append, List.mem_cons, List.not_mem_nil, or_false]
        rintro ((h | rfl) | rfl | rfl)
        · exact Or.inl h
        · exact Or.inr rfl
        · exact Or.inr rfl
        · exact Or.inr rfl
  rcases hcase with h | h
  · exact hinv e h
  · refine ⟨Or.inl h, ?_⟩
    intro ec' hec
    exfalso
    cases e <;> simp_all [Ev.invokeArgs, Ev.invokeEC]

/-- When the evaluation comes back indeterminate and the context reports
nothing to wait on, the pass resolves immediately: the callback is handed
the indeterminate status itself together with the pass's result. -/
theorem OnPolicyReadyToEvaluate_unschedulable {St R A : Type}
    (p : Policies St R A) (sched : EvaluationContext → Bool)
    (ec : EvaluationContext) (st : St) (r0 : R) (args : A)
    (hAMAL : (EvaluatePolicy p ec st r0 args).status = kAskMeAgainLater)
    (hsched : sched (entryEC ec) = false) :
    (OnPolicyReadyToEvaluate p sched ec st r0 args).1 =
      StepResult.delivered kAskMeAgainLater
        (EvaluatePolicy p ec st r0 args).result := by
  obtain ⟨hec, -, -, -, -, -, -, -, -⟩ := EvaluatePolicy_props p ec st r0 args
  simp only [OnPolicyReadyToEvaluate]
  rw [hec] at *
  split
  · simp_all
  · rw [hec, hsched]
    simp [hAMAL]

/-- The delivery callback runs exactly once over an async request's life:
once the driver reports a delivered result, the cumulative trace holds one
callback run; while the request is still pending, it holds none. -/
theorem runAsyncFrom_callbackRuns {St R A : Type} (p : Policies St R A)
    (world : Nat → St) (sched : Nat → EvaluationContext → Bool) (r0 : R)
    (args : A) :
    ∀ fuel n ec,
      callbackRuns (runAsyncFrom p world sched r0 args ec n fuel).2 =
        (if (runAsyncFrom p world sched r0 args ec n fuel).1.isSome
         then 1 else 0)
  | 0, n, ec => by simp [runAsyncFrom, callbackRuns]
  | fuel + 1, n, ec => by
    obtain ⟨hone, -, hdel⟩ :=
      OnPolicyReadyToEvaluate_counts p (sched n) ec (world n) r0 args
    rcases hstep : OnPolicyReadyToEvaluate p (sched n) ec (world n) r0 args
      with ⟨res, tr⟩
    rw [hstep] at hone hdel
    have hone' : callbackRuns tr + schedSuccesses tr = 1 := hone
    have hdel' : res.isDelivered = true ↔ callbackRuns tr = 1 := hdel
    simp only [runAsyncFrom, hstep]
    rcases res with ⟨s, r⟩ | ec'
    · have hcb1 : callbackRuns tr = 1 :=
        hdel'.mp (by simp [StepResult.isDelivered])
      simp [hcb1]
    · have hne : ¬ callbackRuns tr = 1 := by
        intro h1
        have := hdel'.mpr h1
        simp [StepResult.isDelivered] at this
      have hcb0 : callbackRuns tr = 0 := by omega
      have ih := runAsyncFrom_callbackRuns p world sched r0 args fuel (n + 1) ec'
      simp [callbackRuns_append, hcb0, ih]

/-- Every policy invocation across the whole life of an async request uses
the argument bundle captured at the start and a context with the identity
of the starting context. -/
theorem runAsyncFrom_events {St R A : Type} (p : Policies St R A)
    (world : Nat → St) (sched : Nat → EvaluationContext → Bool) (r0 : R)
    (args : A) :
    ∀ fuel n ec, ∀ e ∈ (runAsyncFrom p world sched r0 args ec n fuel).2,
      (e.invokeArgs = none ∨ e.invokeArgs = some args) ∧
      (∀ ec', e.invokeEC = some ec' → ec'.id = ec.id)
  | 0, n, ec => by simp [runAsyncFrom]
  | fuel + 1, n, ec => by
    intro e he
    simp only [runAsyncFrom] at he
    rcases hstep : OnPolicyReadyToEvaluate p (sched n) ec (world n) r0 args
      with ⟨res, tr⟩
    rw [hstep] at he
    rcases res with ⟨s, r⟩ | ec'
    · have he' : e ∈ tr := he
      have := OnPolicyReadyToEvaluate_events p (sched n) ec (world n) r0 args e
        (by rw [hstep]; exact he')
      refine ⟨this.1, fun ec'' hec => ?_⟩
      have h := this.2 ec'' hec
      rw [h, entryEC_id]
    · have he' : e ∈ tr ++ (runAsyncFrom p world sched r0 args ec' (n + 1) fuel).2 := he
      rw [List.mem_append] at he'
      rcases he' with he' | he'
      · have := OnPolicyReadyToEvaluate_events p (sched n) ec (world n) r0 args e
          (by rw [hstep]; exact he')
        refine ⟨this.1, fun ec'' hec => ?_⟩
        have h := this.2 ec'' hec
        rw [h, entryEC_id]
      · have hid : ec'.id = ec.id := by
          have := (OnPolicyReadyToEvaluate_rescheduled p (sched n) ec (world n)
            r0 args ec' (by rw [hstep])).1
          rw [this, entryEC_id]
        have ih := runAsyncFrom_events p world sched r0 args fuel (n + 1) ec' e he'
        exact ⟨ih.1, fun ec'' hec => (ih.2 ec'' hec).trans hid⟩

/-- Whatever a pass's outcome, the evaluation's own trace is contained in
the pass's trace. -/
theorem OnPolicyReadyToEvaluate_trace_extends {St R A : Type}
    (p : Policies St R A) (sched : EvaluationContext → Bool)
    (ec : EvaluationContext) (st : St) (r0 : R) (args : A) :
    ∀ e ∈ (EvaluatePolicy p ec st r0 args).trace,
      e ∈ (OnPolicyReadyToEvaluate p sched ec st r0 args).2 := by
  intro e he
  simp only [OnPolicyReadyToEvaluate]
  split
  · simp [List.mem_append, he]
  · split <;> simp [List.mem_append, he]

/-- The first pass's trace is contained in the driven run's cumulative
trace. -/
theorem runAsyncFrom_trace_extends {St R A : Type} (p : Policies St R A)
    (world : Nat → St) (sched : Nat → EvaluationContext → Bool) (r0 : R)
    (args : A) (ec : EvaluationContext) (n fuel : Nat) :
    ∀ e ∈ (OnPolicyReadyToEvaluate p (sched n) ec (world n) r0 args).2,
      e ∈ (runAsyncFrom p world sched r0 args ec n (fuel + 1)).2 := by
  intro e he
  rcases hs : OnPolicyReadyToEvaluate p (sched n) ec (world n) r0 args
    with ⟨res, tr⟩
  rw [hs] at he
  have he' : e ∈ tr := he
  simp only [runAsyncFrom, hs]
  rcases res with ⟨s, r⟩ | ec' <;> simp [he']

/-! ### Claim theorems -/

/-- C1: in every `EvaluatePolicy` pass, the default policy is invoked iff
the primary's invocation returned `kFailed`; when invoked it receives the
identical context, state and argument values the primary received on that
pass; on primary `kSucceeded` or `kAskMeAgainLater` the pass returns that
status with no default-policy invocation. -/
theorem evaluatePolicy_fallback_iff_primary_failed
    {St R A : Type} (p : Policies St R A) (ec0 : EvaluationContext)
    (st : St) (r0 : R) (args : A) :
    Ev.invokePrimary (entryEC ec0) st "" r0 args ∈
        (EvaluatePolicy p ec0 st r0 args).trace ∧
    defaultCalls (EvaluatePolicy p ec0 st r0 args).trace =
      (if (p.policy_ (entryEC ec0) st "" r0 args).1 = kFailed then 1 else 0) ∧
    ((p.policy_ (entryEC ec0) st "" r0 args).1 = kFailed →
      Ev.invokeDefault (entryEC ec0) st ""
          (p.policy_ (entryEC ec0) st "" r0 args).2.2 args ∈
        (EvaluatePolicy p ec0 st r0 args).trace) ∧
    ((p.policy_ (entryEC ec0) st "" r0 args).1 ≠ kFailed →
      (EvaluatePolicy p ec0 st r0 args).status =
        (p.policy_ (entryEC ec0) st "" r0 args).1) := by
  cases hexp : ec0.is_expired with
  | false =>
    rcases hp : p.policy_ (entryEC ec0) st "" r0 args with ⟨s1, e1, r1⟩
    simp only [entryEC, hexp, if_neg Bool.false_ne_true, Bool.false_eq_true,
      if_false] at hp ⊢
    cases s1 <;>
      simp [EvaluatePolicy, hexp, hp, defaultCalls, Ev.isInvokeDefault] <;>
      rcases hd : p.default_policy_ (ec0.ResetEvaluation) st "" r1 args
        with ⟨s2, e2, r2⟩ <;>
      cases s2 <;> simp [hd, Ev.isInvokeDefault]
  | true =>
    rcases hp : p.policy_ (entryEC ec0) st "" r0 args with ⟨s1, e1, r1⟩
    simp only [entryEC, hexp, if_pos rfl, if_true] at hp ⊢
    cases s1 <;>
      simp [EvaluatePolicy, hexp, hp, defaultCalls, Ev.isInvokeDefault] <;>
      rcases hd : p.default_policy_ (ec0.ResetExpiration.ResetEvaluation)
        st "" r1 args with ⟨s2, e2, r2⟩ <;>
      cases s2 <;> simp [hd, Ev.isInvokeDefault]

/-- C1 witness: with a primary that fails and a default that succeeds, the
default policy runs exactly once and receives the same context, state and
arguments the primary received. -/
theorem evaluatePolicy_fallback_iff_primary_failed_witness :
    defaultCalls (EvaluatePolicy (constPolicies kFailed kSucceeded 1 2)
      (newEvaluationContext 0 5 none) 0 0 0).trace = 1 ∧
    Ev.invokeDefault (entryEC (newEvaluationContext 0 5 none)) 0 "" 1 0 ∈
      (EvaluatePolicy (constPolicies kFailed kSucceeded 1 2)
        (newEvaluationContext 0 5 none) 0 0 0).trace := by
  have h := evaluatePolicy_fallback_iff_primary_failed
    (constPolicies kFailed kSucceeded 1 2) (newEvaluationContext 0 5 none) 0 0 0
  refine ⟨?_, h.2.2.1 (by decide)⟩
  have h2 := h.2.1
  simpa [constPolicies, constMethod] using h2

/-- C2: when the primary policy fails and the default policy then returns
`kAskMeAgainLater`, the pass returns `kFailed`, never
`kAskMeAgainLater` (the contract-violation downgrade). -/
theorem evaluatePolicy_default_askme_downgraded
    {St R A : Type} (p : Policies St R A) (ec0 : EvaluationContext)
    (st : St) (r0 : R) (args : A)
    (h1 : (p.policy_ (entryEC ec0) st "" r0 args).1 = kFailed)
    (h2 : (p.default_policy_ (entryEC ec0) st ""
        (p.policy_ (entryEC ec0) st "" r0 args).2.2 args).1 = kAskMeAgainLater) :
    (EvaluatePolicy p ec0 st r0 args).status = kFailed := by
  rw [(EvaluatePolicy_failed_status p ec0 st r0 args h1).1, h2]
  simp

/-- C2 witness: a failing primary with a blocking default yields `kFailed`
on a concrete run. -/
theorem evaluatePolicy_default_askme_downgraded_witness :
    (EvaluatePolicy (constPolicies kFailed kAskMeAgainLater 1 2)
      (newEvaluationContext 0 5 none) 0 0 0).status = kFailed :=
  evaluatePolicy_default_askme_downgraded
    (constPolicies kFailed kAskMeAgainLater 1 2)
    (newEvaluationContext 0 5 none) 0 0 0 (by decide) (by decide)

/-- C5: when the context is expired at the start of a pass, the pass first
logs the context dump, then calls `ResetExpiration`, then `ResetEvaluation`
— in that order — and the policy invocation still runs to completion; when
the context is not expired, `ResetExpiration` is never called. -/
theorem evaluatePolicy_expiration_reset_order
    {St R A : Type} (p : Policies St R A) (ec0 : EvaluationContext)
    (st : St) (r0 : R) (args : A) :
    (ec0.is_expired = true →
      (EvaluatePolicy p ec0 st r0 args).trace.take 4 =
        [Ev.logWarning "Request timed out, evaluation context",
         Ev.dumpContext ec0, Ev.resetExpiration, Ev.resetEvaluation] ∧
      primaryCalls (EvaluatePolicy p ec0 st r0 args).trace = 1 ∧
      Ev.logInfoEnd p.policyName ∈ (EvaluatePolicy p ec0 st r0 args).trace) ∧
    (ec0.is_expired = false →
      expirationResetCalls (EvaluatePolicy p ec0 st r0 args).trace = 0) := by
  constructor <;> intro hexp <;>
  · rcases hp : p.policy_ (entryEC ec0) st "" r0 args with ⟨s1, e1, r1⟩
    simp only [entryEC, hexp, if_true, Bool.false_eq_true, if_false] at hp
    cases s1 <;>
      simp_all [EvaluatePolicy, hexp, primaryCalls, expirationResetCalls,
        List.countP_cons, List.countP_nil, Ev.isInvokePrimary,
        Ev.isResetExpiration] <;>
      rcases hd : p.default_policy_ ((if ec0.is_expired = true then
          ec0.ResetExpiration else ec0).ResetEvaluation) st "" r1 args
        with ⟨s2, e2, r2⟩ <;>
      simp only [hexp, if_true, Bool.false_eq_true, if_false] at hd <;>
      cases s2 <;>
      simp_all [List.countP_cons, List.countP_nil, Ev.isInvokePrimary,
        Ev.isResetExpiration]

/-- C5 witness: a concrete expired context dumps, resets expiration, then
resets evaluation; a concrete fresh context never resets expiration. -/
theorem evaluatePolicy_expiration_reset_order_witness :
    (EvaluatePolicy (constPolicies kSucceeded kSucceeded 1 2)
        ⟨0, 5, some 9, true, 0, 0⟩ 0 0 0).trace.take 4 =
      [Ev.logWarning "Request timed out, evaluation context",
       Ev.dumpContext ⟨0, 5, some 9, true, 0, 0⟩, Ev.resetExpiration,
       Ev.resetEvaluation] ∧
    expirationResetCalls (EvaluatePolicy (constPolicies kSucceeded kSucceeded 1 2)
        (newEvaluationContext 0 5 none) 0 0 0).trace = 0 :=
  ⟨((evaluatePolicy_expiration_reset_order (constPolicies kSucceeded kSucceeded 1 2)
      ⟨0, 5, some 9, true, 0, 0⟩ 0 0 0).1 (by decide)).1,
   (evaluatePolicy_expiration_reset_order (constPolicies kSucceeded kSucceeded 1 2)
      (newEvaluationContext 0 5 none) 0 0 0).2 (by decide)⟩

/-- C9: whenever the fallback runs, the default policy starts from an
empty error slot (the dispatcher clears the slot first), and the error
reported for the fallback's outcome is exactly what the default policy
wrote into that cleared slot — the primary's error text cannot leak into
it. -/
theorem evaluatePolicy_error_slot_cleared_for_default
    {St R A : Type} (p : Policies St R A) (ec0 : EvaluationContext)
    (st : St) (r0 : R) (args : A) :
    (∀ ec' st' err slot a,
      Ev.invokeDefault ec' st' err slot a ∈ (EvaluatePolicy p ec0 st r0 args).trace →
      err = "") ∧
    ((p.policy_ (entryEC ec0) st "" r0 args).1 = kFailed →
      (EvaluatePolicy p ec0 st r0 args).error =
        (p.default_policy_ (entryEC ec0) st ""
          (p.policy_ (entryEC ec0) st "" r0 args).2.2 args).2.1) :=
  ⟨EvaluatePolicy_invokeDefault_err p ec0 st r0 args,
   fun h1 => (EvaluatePolicy_failed_status p ec0 st r0 args h1).2⟩

/-- C9 witness: on a concrete failing run the reported error is the default
policy's own text, written into a cleared slot. -/
theorem evaluatePolicy_error_slot_cleared_for_default_witness :
    (EvaluatePolicy (constPolicies kFailed kFailed 1 2)
      (newEvaluationContext 3 5 none) 0 0 0).error = "default error" := by
  have h := (evaluatePolicy_error_slot_cleared_for_default
    (constPolicies kFailed kFailed 1 2) (newEvaluationContext 3 5 none) 0 0 0).2
    (by decide)
  rw [h]
  rfl

/-- C4: a synchronous `PolicyRequest` performs exactly one evaluation pass
on a context built with only the soft evaluation timeout (no expiration
timeout), never calls `RunOnValueChangeOrTimeout`, never runs a delivery
callback, and returns the pass's status unchanged — including
`kAskMeAgainLater`. -/
theorem policyRequest_single_pass
    {St R A A0 : Type} (um : UpdateManager) (p : Policies St R A)
    (conv : A0 → A) (st : St) (r0 : R) (ecid : Nat) (args0 : A0) :
    (PolicyRequest um p conv st r0 ecid args0).status =
      (EvaluatePolicy p (newEvaluationContext ecid um.evaluation_timeout none)
        st r0 (conv args0)).status ∧
    primaryCalls (PolicyRequest um p conv st r0 ecid args0).trace = 1 ∧
    schedCalls (PolicyRequest um p conv st r0 ecid args0).trace = 0 ∧
    callbackRuns (PolicyRequest um p conv st r0 ecid args0).trace = 0 ∧
    (∀ e ∈ (PolicyRequest um p conv st r0 ecid args0).trace,
      ∀ ec', e.invokeEC = some ec' →
        ec'.expiration_timeout = none ∧
        ec'.evaluation_timeout = um.evaluation_timeout) := by
  obtain ⟨-, hpc, hcb, hsc, -, -, -, -, hinv⟩ := EvaluatePolicy_props p
    (newEvaluationContext ecid um.evaluation_timeout none) st r0 (conv args0)
  have htime := entryEC_timeouts (newEvaluationContext ecid um.evaluation_timeout none)
  simp only [PolicyRequest]
  refine ⟨by trivial, ?_, ?_, ?_, ?_⟩
  · rw [primaryCalls_append, hpc]
    split <;>
      simp [primaryCalls, List.countP_cons, List.countP_nil, Ev.isInvokePrimary]
  · rw [schedCalls_append, hsc]
    split <;>
      simp [schedCalls, List.countP_cons, List.countP_nil, Ev.isSchedCall]
  · rw [callbackRuns_append, hcb]
    split <;>
      simp [callbackRuns, List.countP_cons, List.countP_nil, Ev.isCallbackRun]
  · intro e he ec' hec
    rw [List.mem_append] at he
    rcases he with he | he
    · have hee := (hinv e he).2 ec' hec
      subst hee
      exact ⟨htime.2.trans rfl, htime.1.trans rfl⟩
    · have hee : e = Ev.logWarning
          "Sync request used with an async policy; this is a bug" := by
        revert he; split <;> simp
      subst hee
      simp [Ev.invokeEC] at hec

/-- C4 witness: a concrete sync request with a blocking primary uses one
pass, never touches the scheduler, and hands back `kAskMeAgainLater`. -/
theorem policyRequest_single_pass_witness :
    primaryCalls (PolicyRequest ⟨5, 9⟩
      (constPolicies kAskMeAgainLater kSucceeded 1 2) id 0 0 0 0).trace = 1 ∧
    schedCalls (PolicyRequest ⟨5, 9⟩
      (constPolicies kAskMeAgainLater kSucceeded 1 2) id 0 0 0 0).trace = 0 ∧
    (PolicyRequest ⟨5, 9⟩
      (constPolicies kAskMeAgainLater kSucceeded 1 2) id 0 0 0 0).status =
      kAskMeAgainLater := by
  have h := policyRequest_single_pass ⟨5, 9⟩
    (constPolicies kAskMeAgainLater kSucceeded 1 2) id 0 0 0 0
  exact ⟨h.2.1, h.2.2.1, h.1.trans (by decide)⟩

/-- C10: the `DCHECK(EvalStatus::kAskMeAgainLater != ret)` condition in
`PolicyRequest` is violated exactly when the evaluation yields
`kAskMeAgainLater`; nothing in the sync path prevents that, and in release
semantics the status is still returned after a warning log. -/
theorem policyRequest_dcheck_askme
    {St R A A0 : Type} (um : UpdateManager) (p : Policies St R A)
    (conv : A0 → A) (st : St) (r0 : R) (ecid : Nat) (args0 : A0) :
    ((PolicyRequest um p conv st r0 ecid args0).dcheckViolated = true ↔
      (p.policy_ (entryEC (newEvaluationContext ecid um.evaluation_timeout none))
        st "" r0 (conv args0)).1 = kAskMeAgainLater) ∧
    ((PolicyRequest um p conv st r0 ecid args0).dcheckViolated = true →
      (PolicyRequest um p conv st r0 ecid args0).status = kAskMeAgainLater ∧
      Ev.logWarning "Sync request used with an async policy; this is a bug" ∈
        (PolicyRequest um p conv st r0 ecid args0).trace) := by
  obtain ⟨-, -, -, -, -, hiff, -, -, -⟩ := EvaluatePolicy_props p
    (newEvaluationContext ecid um.evaluation_timeout none) st r0 (conv args0)
  unfold PolicyRequest
  constructor
  · simpa using hiff
  · intro hdv
    have hst : (EvaluatePolicy p
        (newEvaluationContext ecid um.evaluation_timeout none) st r0
        (conv args0)).status = kAskMeAgainLater := by
      simpa using hdv
    constructor
    · simp [hst]
    · simp [hst]

/-- C10 witness: a concrete sync request whose primary blocks trips the
assertion condition, yet still returns `kAskMeAgainLater`. -/
theorem policyRequest_dcheck_askme_witness :
    (PolicyRequest ⟨5, 9⟩ (constPolicies kAskMeAgainLater kSucceeded 1 2)
      id 0 0 0 0).dcheckViolated = true ∧
    (PolicyRequest ⟨5, 9⟩ (constPolicies kAskMeAgainLater kSucceeded 1 2)
      id 0 0 0 0).status = kAskMeAgainLater := by
  have h := policyRequest_dcheck_askme ⟨5, 9⟩
    (constPolicies kAskMeAgainLater kSucceeded 1 2) id 0 0 0 0
  have hdv := h.1.mpr (by decide)
  exact ⟨hdv, (h.2 hdv).1⟩

/-- C6: each async evaluation pass performs exactly one of two actions —
it runs the delivery callback, or it registers exactly one reevaluation
closure — never both and never neither; consequently, over a driven run
the delivery callback fires exactly once when a result is delivered and
zero times while the request is still pending (abandonment). -/
theorem asyncRequest_exactly_one_action
    {St R A : Type} (p : Policies St R A) (sched1 : EvaluationContext → Bool)
    (ec1 : EvaluationContext) (st : St) (r0 : R) (args : A)
    (world : Nat → St) (sched : Nat → EvaluationContext → Bool)
    (fuel n : Nat) (ec : EvaluationContext) :
    callbackRuns (OnPolicyReadyToEvaluate p sched1 ec1 st r0 args).2 +
      schedSuccesses (OnPolicyReadyToEvaluate p sched1 ec1 st r0 args).2 = 1 ∧
    ((OnPolicyReadyToEvaluate p sched1 ec1 st r0 args).1.isDelivered = true ↔
      callbackRuns (OnPolicyReadyToEvaluate p sched1 ec1 st r0 args).2 = 1) ∧
    callbackRuns (runAsyncFrom p world sched r0 args ec n fuel).2 =
      (if (runAsyncFrom p world sched r0 args ec n fuel).1.isSome
       then 1 else 0) := by
  obtain ⟨h1, -, h3⟩ := OnPolicyReadyToEvaluate_counts p sched1 ec1 st r0 args
  exact ⟨h1, h3, runAsyncFrom_callbackRuns p world sched r0 args fuel n ec⟩

/-- C3 counterexample: a concrete async request whose only pass yields
`kAskMeAgainLater` with nothing to wait on delivers the callback exactly
once — with status `kAskMeAgainLater`, not `kFailed` as the claim
states. -/
theorem asyncRequest_unschedulable_cex :
    ((runAsyncFrom (constPolicies kAskMeAgainLater kSucceeded 1 2)
        (fun _ => 0) (fun _ _ => false) 0 0
        (newEvaluationContext 0 5 (some 9)) 0 1).1 =
      some (kAskMeAgainLater, 1)) ∧
    List.filter Ev.isCallbackRun
        (runAsyncFrom (constPolicies kAskMeAgainLater kSucceeded 1 2)
          (fun _ => 0) (fun _ _ => false) 0 0
          (newEvaluationContext 0 5 (some 9)) 0 1).2 =
      [Ev.callbackRun kAskMeAgainLater 1] ∧
    kAskMeAgainLater ≠ kFailed := by
  decide

/-- C3 (amended): for an async request whose pass yields
`kAskMeAgainLater` and whose context reports nothing to wait on
(`RunOnValueChangeOrTimeout` returns false), the delivery callback is
invoked exactly once — with the indeterminate status `kAskMeAgainLater`
itself — and no further evaluation passes occur for that request. -/
theorem asyncRequest_unschedulable_delivers_indeterminate
    {St R A : Type} (p : Policies St R A) (world : Nat → St)
    (sched : Nat → EvaluationContext → Bool) (r0 : R) (args : A)
    (ec : EvaluationContext) (n fuel : Nat)
    (hAMAL : (EvaluatePolicy p ec (world n) r0 args).status = kAskMeAgainLater)
    (hsched : sched n (entryEC ec) = false) :
    (runAsyncFrom p world sched r0 args ec n (fuel + 1)).1 =
      some (kAskMeAgainLater, (EvaluatePolicy p ec (world n) r0 args).result) ∧
    callbackRuns (runAsyncFrom p world sched r0 args ec n (fuel + 1)).2 = 1 ∧
    primaryCalls (runAsyncFrom p world sched r0 args ec n (fuel + 1)).2 = 1 := by
  have hstep := OnPolicyReadyToEvaluate_unschedulable p (sched n) ec (world n)
    r0 args hAMAL hsched
  obtain ⟨-, hpc, hdel⟩ :=
    OnPolicyReadyToEvaluate_counts p (sched n) ec (world n) r0 args
  rcases hs : OnPolicyReadyToEvaluate p (sched n) ec (world n) r0 args
    with ⟨res, tr⟩
  rw [hs] at hstep hpc hdel
  have hpc' : primaryCalls tr = 1 := hpc
  have hdel' : res.isDelivered = true ↔ callbackRuns tr = 1 := hdel
  have hres : res = StepResult.delivered kAskMeAgainLater
      (EvaluatePolicy p ec (world n) r0 args).result := hstep
  subst hres
  have hcb : callbackRuns tr = 1 := hdel'.mp (by simp [StepResult.isDelivered])
  simp only [runAsyncFrom, hs]
  exact ⟨by trivial, hcb, hpc'⟩

/-- C3 amended witness: the concrete unschedulable request resolves in one
pass with the indeterminate status delivered. -/
theorem asyncRequest_unschedulable_delivers_indeterminate_witness :
    (runAsyncFrom (constPolicies kAskMeAgainLater kSucceeded 1 2)
        (fun _ => 0) (fun _ _ => false) 0 0
        (newEvaluationContext 3 5 (some 9)) 0 1).1 =
      some (kAskMeAgainLater, 1) := by
  have h := asyncRequest_unschedulable_delivers_indeterminate
    (constPolicies kAskMeAgainLater kSucceeded 1 2) (fun _ => 0)
    (fun _ _ => false) 0 0 (newEvaluationContext 3 5 (some 9)) 0 0
    (by decide) (by decide)
  exact h.1.trans (by decide)

/-- C7: `AsyncPolicyRequest` never runs the policy inline: its own trace
is exactly one posting to the event loop (no policy invocation, no
callback); the context it builds carries both the evaluation and the
expiration timeout; the posted closure captures the converted arguments;
and the first primary invocation appears only in the trace of the
event-loop-driven run of that closure. -/
theorem asyncPolicyRequest_posts_only
    {St R A A0 : Type} (um : UpdateManager) (conv : A0 → A) (ecid : Nat)
    (args0 : A0) (p : Policies St R A) (world : Nat → St)
    (sched : Nat → EvaluationContext → Bool) (r0 : R) (fuel : Nat) :
    (@AsyncPolicyRequest St R A A0 um conv ecid args0).2 =
      [Ev.runFromMainLoop] ∧
    primaryCalls (@AsyncPolicyRequest St R A A0 um conv ecid args0).2 = 0 ∧
    defaultCalls (@AsyncPolicyRequest St R A A0 um conv ecid args0).2 = 0 ∧
    callbackRuns (@AsyncPolicyRequest St R A A0 um conv ecid args0).2 = 0 ∧
    (@AsyncPolicyRequest St R A A0 um conv ecid args0).1.ec =
      newEvaluationContext ecid um.evaluation_timeout
        (some um.expiration_timeout) ∧
    (@AsyncPolicyRequest St R A A0 um conv ecid args0).1.args =
      conv args0 ∧
    Ev.invokePrimary
        (entryEC (newEvaluationContext ecid um.evaluation_timeout
          (some um.expiration_timeout)))
        (world 0) "" r0 (conv args0) ∈
      (runPostedClosure p world sched r0
        (@AsyncPolicyRequest St R A A0 um conv ecid args0).1
        (fuel + 1)).2 := by
  obtain ⟨-, -, -, -, -, -, -, hmem, -⟩ := EvaluatePolicy_props p
    (newEvaluationContext ecid um.evaluation_timeout
      (some um.expiration_timeout)) (world 0) r0 (conv args0)
  refine ⟨rfl, rfl, rfl, rfl, rfl, rfl, ?_⟩
  exact runAsyncFrom_trace_extends p world sched r0 (conv args0)
    (newEvaluationContext ecid um.evaluation_timeout
      (some um.expiration_timeout)) 0 fuel _
    (OnPolicyReadyToEvaluate_trace_extends p (sched 0)
      (newEvaluationContext ecid um.evaluation_timeout
        (some um.expiration_timeout)) (world 0) r0 (conv args0) _ hmem)

/-- C8: arguments are converted from the caller-supplied type exactly once,
at the `AsyncPolicyRequest` boundary — the posted closure already carries
the converted bundle — and every policy invocation of every later pass
uses exactly that bundle and a context carrying the identity of the
context built at the boundary. -/
theorem asyncRequest_args_converted_once
    {St R A A0 : Type} (um : UpdateManager) (conv : A0 → A) (ecid : Nat)
    (args0 : A0) (p : Policies St R A) (world : Nat → St)
    (sched : Nat → EvaluationContext → Bool) (r0 : R) (fuel : Nat) :
    (@AsyncPolicyRequest St R A A0 um conv ecid args0).1.args =
      conv args0 ∧
    (@AsyncPolicyRequest St R A A0 um conv ecid args0).1.ec.id =
      ecid ∧
    (∀ e ∈ (runPostedClosure p world sched r0
        (@AsyncPolicyRequest St R A A0 um conv ecid args0).1 fuel).2,
      (e.invokeArgs = none ∨ e.invokeArgs = some (conv args0)) ∧
      (∀ ec', e.invokeEC = some ec' → ec'.id = ecid)) := by
  refine ⟨rfl, rfl, ?_⟩
  intro e he
  have he' : e ∈ (runAsyncFrom p world sched r0 (conv args0)
      (newEvaluationContext ecid um.evaluation_timeout
        (some um.expiration_timeout)) 0 fuel).2 := he
  have h := runAsyncFrom_events p world sched r0 (conv args0) fuel 0
    (newEvaluationContext ecid um.evaluation_timeout
      (some um.expiration_timeout)) e he'
  exact ⟨h.1, fun ec' hec => (h.2 ec' hec).trans rfl⟩

/-- C8 witness: on a concrete two-pass run (the world flips after pass 1)
the pass-1 primary invocation carries the once-converted arguments, and the
invoked context keeps the boundary identity. -/
theorem asyncRequest_args_converted_once_witness :
    Ev.invokeArgs (Ev.invokePrimary
        (entryEC (newEvaluationContext 4 5 (some 9))) (0 : Nat) ""
        (0 : Nat) (11 : Nat)) = some 11 ∧
    (entryEC (newEvaluationContext 4 5 (some 9))).id = 4 := by
  have h := @asyncRequest_args_converted_once Nat Nat Nat Nat ⟨5, 9⟩
    (fun n : Nat => n + 1) 4 10 worldPolicies (fun k => k) (fun _ _ => true)
    0 2
  have hm := h.2.2 (Ev.invokePrimary
    (entryEC (newEvaluationContext 4 5 (some 9))) 0 "" 0 11) (by decide)
  refine ⟨?_, hm.2 _ (by decide)⟩
  rcases hm.1 with hh | hh
  · simp [Ev.invokeArgs] at hh
  · simpa using hh

end UpdateEngine
